import Mathlib

/-!
# Verification of the `wssrv` channel registry and broadcast relay

A shallow embedding of `src/wssrv.go`, a websocket signalling relay:
clients request short channel codes, join channels by code, and
broadcast messages to the other members of their channel.

The embedding mirrors the Go source:
* `Request` / `RequestChannelIdResponse` are the wire structures.
* `Registry` models the global `connections : map[string][]*websocket.Conn`,
  as an association list from channel code to member list, with Go map
  read/write semantics (`lookup`, `setKey`, and `getD` for the
  zero-value-on-missing-key read used by `append` and `range`).
* `generateChannelId` mirrors the retry loop, with the stream of
  `rand.Intn(len(letters))` draws made explicit as a function
  `rng : Nat → Nat` (draw number ↦ value; only its residue mod 26 is used,
  exactly as `rand.Intn` bounds it).
* `handleCommand` mirrors one iteration of the `switch data.Command`
  dispatch in `WsHandler`, returning the new registry, the list of
  performed sends (in order), and whether the handler keeps looping,
  or aborts this connection (the `log.Panicf` paths).
* `cleanup` mirrors the deferred cleanup block of `WsHandler`, which
  only closes the socket and does not touch the registry
  (the source marks the removal as an unimplemented TODO).
-/

/-- Opaque identity of one websocket connection (`*websocket.Conn`). -/
abbrev Conn := Nat

/-- `Request` from the source: structure of requests sent by the clients. -/
structure Request where
  Command : String
  Channel : String
  Data : String
deriving DecidableEq, Repr

/-- `RequestChannelIdResponse` from the source: response to `requestChannelId`. -/
structure RequestChannelIdResponse where
  ChannelId : String
deriving DecidableEq, Repr

/-- A decoded message sent out on a websocket: either a forwarded
`Request` (the `send` broadcast) or a channel-id response. -/
inductive WireMsg
  | req : Request → WireMsg
  | cidResp : RequestChannelIdResponse → WireMsg
deriving DecidableEq, Repr

/-- The global `connections` map: channel code ↦ member connections,
modelled as an association list without duplicate keys by construction
(`setKey` replaces the first binding). -/
abbrev Registry := List (String × List Conn)

/-- Go map read: `v, ok := m[k]`. -/
def lookup : Registry → String → Option (List Conn)
  | [], _ => none
  | (k, v) :: rest, key => if k = key then some v else lookup rest key

/-- Go map read with zero value: `m[k]` evaluates to `nil` (here `[]`)
when the key is absent, without mutating the map. -/
def getD (st : Registry) (key : String) : List Conn :=
  (lookup st key).getD []

/-- Go map write `m[k] = v`: replace the binding or add a new one. -/
def setKey : Registry → String → List Conn → Registry
  | [], key, v => [(key, v)]
  | (k, w) :: rest, key, v =>
      if k = key then (key, v) :: rest else (k, w) :: setKey rest key v

/-- `letters` from the source: the characters used to generate a channel id. -/
def letters : List Char := "ABCDEFGHIJKLMNOPQRSTUVWXYZ".toList

/-- `generateChannelIdLength` from the source. -/
def generateChannelIdLength : Nat := 4

/-- `generateMaxTries` from the source. -/
def generateMaxTries : Nat := 20

/-- `letters[rand.Intn(len(letters))]`: the character selected by one raw
random draw `n` (`rand.Intn` bounds the draw, modelled by the residue). -/
def letterAt (n : Nat) : Char :=
  letters.get ⟨n % letters.length, Nat.mod_lt n (by decide)⟩

/-- The 4-character id drawn on try number `t`: the inner `for i := range id`
loop, consuming draws `4*t, 4*t+1, 4*t+2, 4*t+3` of the stream. -/
def genTry (rng : Nat → Nat) (t : Nat) : String :=
  String.mk ((List.range generateChannelIdLength).map
    fun i => letterAt (rng (generateChannelIdLength * t + i)))

/-- The retry loop of `generateChannelId`, structured on the number of
tries remaining; `t` is the index of the current try. -/
def generateChannelIdLoop (rng : Nat → Nat) (st : Registry) :
    Nat → Nat → Option String
  | _, 0 => none
  | t, fuel + 1 =>
      let id := genTry rng t
      if (lookup st id).isNone then some id
      else generateChannelIdLoop rng st (t + 1) fuel

/-- `generateChannelId` from the source: draws up to `generateMaxTries`
candidate ids, returning the first one not present in `connections`;
`none` models the `("", true)` exhaustion return. -/
def generateChannelId (rng : Nat → Nat) (st : Registry) : Option String :=
  generateChannelIdLoop rng st 0 generateMaxTries

/-- How one iteration of the `WsHandler` receive loop ends. -/
inductive Outcome
  | proceed   -- fall through and receive the next message
  | aborted   -- a `log.Panicf` path: this handler invocation unwinds
deriving DecidableEq, Repr

/-- Result of processing one received request: the registry afterwards,
the websocket sends performed (in order), and how the iteration ended. -/
structure StepResult where
  st : Registry
  sends : List (Conn × WireMsg)
  outcome : Outcome
deriving DecidableEq, Repr

/-- The `send` broadcast loop: `for _, conn := range connections[data.Channel]`,
sending `data` to every entry different from the sending socket `ws`. -/
def broadcastSends (ws : Conn) (conns : List Conn) (data : Request) :
    List (Conn × WireMsg) :=
  match conns with
  | [] => []
  | c :: rest =>
      if c ≠ ws then (c, WireMsg.req data) :: broadcastSends ws rest data
      else broadcastSends ws rest data

/-- One iteration of the `switch data.Command` dispatch in `WsHandler`,
for socket `ws` on registry `st`; `rng` is the random stream available
to `generateChannelId` during this iteration. -/
def handleCommand (rng : Nat → Nat) (ws : Conn) (st : Registry)
    (data : Request) : StepResult :=
  match data.Command with
  | "" => ⟨st, [], Outcome.proceed⟩
  | "requestChannelId" =>
      match generateChannelId rng st with
      | none =>
          -- log.Panicf("could not generate channel id"): no response is
          -- sent; the handler unwinds
          ⟨st, [], Outcome.aborted⟩
      | some channelId =>
          ⟨setKey st channelId [],
           [(ws, WireMsg.cidResp ⟨channelId⟩)],
           Outcome.proceed⟩
  | "connectChannel" =>
      -- connections[data.Channel] = append(connections[data.Channel], ws)
      ⟨setKey st data.Channel (getD st data.Channel ++ [ws]), [],
       Outcome.proceed⟩
  | "send" =>
      ⟨st, broadcastSends ws (getD st data.Channel) data, Outcome.proceed⟩
  | _ =>
      -- log.Panicf("Unhandled message"): the handler unwinds
      ⟨st, [], Outcome.aborted⟩

/-- The deferred cleanup block of `WsHandler`: it closes the socket only;
the registry is not modified (the source carries the unimplemented
comment `TODO: remove conn from channel`). -/
def cleanup (st : Registry) (_ws : Conn) : Registry := st

/-- The channel codes whose member list contains `c` (the only notion of
a connection's current channel recoverable from the source, which stores
no per-connection channel field). -/
def channelsOf (st : Registry) (c : Conn) : List String :=
  (st.filter fun p => decide (c ∈ p.2)).map Prod.fst

/-- A fixed concrete random stream (always draws index 0, i.e. the letter A),
used for concrete instantiations. -/
def rng0 : Nat → Nat := fun _ => 0

/-! ## Helper lemmas about the channel-id generator -/

lemma letterAt_mem (n : Nat) : letterAt n ∈ letters :=
  List.get_mem letters _ _

lemma letters_uppercase : ∀ c ∈ letters, 'A' ≤ c ∧ c ≤ 'Z' := by decide

lemma genTry_toList (rng : Nat → Nat) (t : Nat) :
    (genTry rng t).toList =
      (List.range generateChannelIdLength).map
        fun i => letterAt (rng (generateChannelIdLength * t + i)) := rfl

lemma genTry_length (rng : Nat → Nat) (t : Nat) : (genTry rng t).length = 4 := by
  have h : (genTry rng t).length = (genTry rng t).toList.length := rfl
  rw [h, genTry_toList, List.length_map, List.length_range]
  rfl

lemma genTry_uppercase (rng : Nat → Nat) (t : Nat) :
    ∀ c ∈ (genTry rng t).toList, 'A' ≤ c ∧ c ≤ 'Z' := by
  intro c hc
  rw [genTry_toList] at hc
  obtain ⟨i, _, rfl⟩ := List.mem_map.mp hc
  exact letters_uppercase _ (letterAt_mem _)

lemma generateChannelIdLoop_some (rng : Nat → Nat) (st : Registry) :
    ∀ fuel t id, generateChannelIdLoop rng st t fuel = some id →
      lookup st id = none ∧ ∃ k, k < fuel ∧ id = genTry rng (t + k) := by
  intro fuel
  induction fuel with
  | zero => intro t id h; simp [generateChannelIdLoop] at h
  | succ n ih =>
      intro t id h
      rw [generateChannelIdLoop] at h
      by_cases hfree : (lookup st (genTry rng t)).isNone
      · simp only [hfree, if_true] at h
        obtain rfl := Option.some.inj h
        refine ⟨Option.isNone_iff_eq_none.mp hfree, 0, Nat.succ_pos n, ?_⟩
        rw [Nat.add_zero]
      · simp only [hfree, if_false] at h
        obtain ⟨h1, k, hk, hid⟩ := ih (t + 1) id h
        refine ⟨h1, k + 1, Nat.succ_lt_succ hk, ?_⟩
        rw [hid, Nat.add_comm k 1, ← Nat.add_assoc]

lemma generateChannelIdLoop_none (rng : Nat → Nat) (st : Registry) :
    ∀ fuel t, generateChannelIdLoop rng st t fuel = none →
      ∀ k, k < fuel → (lookup st (genTry rng (t + k))).isSome := by
  intro fuel
  induction fuel with
  | zero => intro t _ k hk; omega
  | succ n ih =>
      intro t h k hk
      rw [generateChannelIdLoop] at h
      by_cases hfree : (lookup st (genTry rng t)).isNone
      · simp [hfree] at h
      · simp only [hfree, if_false] at h
        match k with
        | 0 =>
            rw [Nat.add_zero]
            cases hlk : lookup st (genTry rng t) with
            | none => rw [hlk] at hfree; simp at hfree
            | some v => simp
        | k + 1 =>
            have hs := ih (t + 1) h k (Nat.lt_of_succ_lt_succ hk)
            have e : t + 1 + k = t + (k + 1) := by omega
            rw [e] at hs
            exact hs

/-! ## Helper lemmas about the registry and the broadcast loop -/

lemma lookup_setKey_self (st : Registry) (key : String) (v : List Conn) :
    lookup (setKey st key v) key = some v := by
  induction st with
  | nil => simp [setKey, lookup]
  | cons p rest ih =>
      obtain ⟨k, w⟩ := p
      by_cases h : k = key
      · simp [setKey, lookup, h]
      · simp [setKey, lookup, h, ih]

lemma lookup_setKey_other (st : Registry) (key key' : String) (v : List Conn)
    (h : key' ≠ key) : lookup (setKey st key v) key' = lookup st key' := by
  have h' : ¬key = key' := fun e => h e.symm
  induction st with
  | nil => simp [setKey, lookup, h']
  | cons p rest ih =>
      obtain ⟨k, w⟩ := p
      by_cases hk : k = key
      · subst hk
        simp [setKey, lookup, h']
      · by_cases hk' : k = key'
        · simp [setKey, lookup, hk, hk', h]
        · simp [setKey, lookup, hk, hk', ih]

lemma broadcastSends_eq_filter (ws : Conn) (conns : List Conn) (data : Request) :
    broadcastSends ws conns data =
      (conns.filter fun c => decide (c ≠ ws)).map fun c => (c, WireMsg.req data) := by
  induction conns with
  | nil => rfl
  | cons c rest ih =>
      by_cases h : c = ws
      · simp [broadcastSends, h, ih]
      · simp [broadcastSends, h, ih]

lemma broadcastSends_count (ws c : Conn) (conns : List Conn) (data : Request)
    (h : c ≠ ws) :
    (broadcastSends ws conns data).count (c, WireMsg.req data) = conns.count c := by
  induction conns with
  | nil => rfl
  | cons a rest ih =>
      by_cases ha : a = ws
      · subst ha
        simp [broadcastSends, List.count_cons_of_ne h, ih]
      · by_cases hac : a = c
        · subst hac
          simp [broadcastSends, ha, List.count_cons_self, ih]
        · have hne : (c, WireMsg.req data) ≠ (a, WireMsg.req data) := by
            intro e
            injection e with e1 _
            exact hac e1.symm
          have hne2 : c ≠ a := fun e => hac e.symm
          simp [broadcastSends, ha, List.count_cons_of_ne hne,
            List.count_cons_of_ne hne2, ih]

lemma broadcastSends_not_sender (s : Conn) (conns : List Conn) (data : Request) :
    ∀ m : WireMsg, (s, m) ∉ broadcastSends s conns data := by
  intro m hm
  induction conns with
  | nil => simp [broadcastSends] at hm
  | cons a rest ih =>
      by_cases ha : a = s
      · simp [broadcastSends, ha] at hm
        exact ih hm
      · simp [broadcastSends, ha] at hm
        rcases hm with ⟨he, _⟩ | hm
        · exact ha he.symm
        · exact ih hm

lemma broadcastSends_verbatim (ws : Conn) (conns : List Conn) (data : Request) :
    ∀ p ∈ broadcastSends ws conns data, p.2 = WireMsg.req data := by
  intro p hp
  induction conns with
  | nil => simp [broadcastSends] at hp
  | cons a rest ih =>
      by_cases ha : a = ws
      · simp [broadcastSends, ha] at hp
        exact ih hp
      · simp [broadcastSends, ha] at hp
        rcases hp with rfl | hp
        · rfl
        · exact ih hp

lemma channelsOf_cons (k : String) (w : List Conn) (rest : Registry) (c : Conn) :
    channelsOf ((k, w) :: rest) c =
      if c ∈ w then k :: channelsOf rest c else channelsOf rest c := by
  by_cases h : c ∈ w <;> simp [channelsOf, List.filter_cons, h]

lemma channelsOf_eq_nil (st : Registry) (c : Conn) :
    channelsOf st c = [] ↔ ∀ p ∈ st, c ∉ p.2 := by
  simp [channelsOf, List.filter_eq_nil_iff]

lemma channelsOf_setKey_mem (st : Registry) (X : String) (v : List Conn)
    (ws : Conn) (hv : ws ∈ v) (h : ∀ p ∈ st, ws ∉ p.2) :
    channelsOf (setKey st X v) ws = [X] := by
  induction st with
  | nil => simp [setKey, channelsOf, hv]
  | cons p rest ih =>
      obtain ⟨k, w⟩ := p
      have hw : ws ∉ w := h (k, w) (List.mem_cons_self _ _)
      have hrest : ∀ q ∈ rest, ws ∉ q.2 := fun q hq => h q (List.mem_cons_of_mem _ hq)
      have hrestnil : channelsOf rest ws = [] := (channelsOf_eq_nil rest ws).mpr hrest
      by_cases hk : k = X
      · subst hk
        rw [setKey]
        simp only [if_pos rfl, channelsOf_cons, hv, if_true, hrestnil]
      · rw [setKey]
        simp [hk, channelsOf_cons, hw, ih hrest]

/-! ## Dispatch equations for `handleCommand` (one per recognized command) -/

lemma handleCommand_empty (rng : Nat → Nat) (ws : Conn) (st : Registry)
    (ch d : String) :
    handleCommand rng ws st ⟨"", ch, d⟩ = ⟨st, [], Outcome.proceed⟩ := rfl

lemma handleCommand_requestChannelId (rng : Nat → Nat) (ws : Conn) (st : Registry)
    (ch d : String) :
    handleCommand rng ws st ⟨"requestChannelId", ch, d⟩ =
      match generateChannelId rng st with
      | none => ⟨st, [], Outcome.aborted⟩
      | some channelId =>
          ⟨setKey st channelId [], [(ws, WireMsg.cidResp ⟨channelId⟩)],
           Outcome.proceed⟩ := rfl

lemma handleCommand_connectChannel (rng : Nat → Nat) (ws : Conn) (st : Registry)
    (X d : String) :
    handleCommand rng ws st ⟨"connectChannel", X, d⟩ =
      ⟨setKey st X (getD st X ++ [ws]), [], Outcome.proceed⟩ := rfl

lemma handleCommand_send (rng : Nat → Nat) (ws : Conn) (st : Registry)
    (X d : String) :
    handleCommand rng ws st ⟨"send", X, d⟩ =
      ⟨st, broadcastSends ws (getD st X) ⟨"send", X, d⟩, Outcome.proceed⟩ := rfl

/-! ## C2 -/

/-- C2: every code returned successfully by `generateChannelId` is not
registered at the moment of generation, has exactly 4 characters, each an
uppercase letter A–Z, and the generator performs at most
`generateMaxTries = 20` tries: a successful code is one of the first 20
draws, and exhaustion is signalled only after all 20 draws collided with
registered codes. -/
theorem generateChannelId_fresh_4upper_bounded (rng : Nat → Nat) (st : Registry) :
    (∀ id, generateChannelId rng st = some id →
        lookup st id = none ∧ id.length = 4 ∧
        (∀ c ∈ id.toList, 'A' ≤ c ∧ c ≤ 'Z') ∧
        ∃ t, t < generateMaxTries ∧ id = genTry rng t) ∧
    (generateChannelId rng st = none →
        ∀ t, t < generateMaxTries → (lookup st (genTry rng t)).isSome) := by
  constructor
  · intro id h
    obtain ⟨hfresh, k, hk, hid⟩ := generateChannelIdLoop_some rng st generateMaxTries 0 id h
    rw [Nat.zero_add] at hid
    subst hid
    refine ⟨hfresh, genTry_length rng k, genTry_uppercase rng k, k, hk, rfl⟩
  · intro h t ht
    have := generateChannelIdLoop_none rng st generateMaxTries 0 h t ht
    simpa using this

/-- Witness for C2 at a concrete input: on the all-zero random stream over
the empty registry, the generator returns `"AAAA"`, which is unregistered,
4 characters long, uppercase, and drawn within the retry bound. -/
theorem generateChannelId_fresh_4upper_bounded_inst :
    generateChannelId rng0 [] = some "AAAA" ∧
    (lookup [] "AAAA" = none ∧ "AAAA".length = 4 ∧
      (∀ c ∈ "AAAA".toList, 'A' ≤ c ∧ c ≤ 'Z') ∧
      ∃ t, t < generateMaxTries ∧ "AAAA" = genTry rng0 t) :=
  ⟨by decide,
   (generateChannelId_fresh_4upper_bounded rng0 []).1 "AAAA" (by decide)⟩

/-! ## C1 -/

/-- C1 (amended): a `send` from connection `s` to channel `X` leaves the
registry unchanged and forwards the original request object verbatim, never
to `s` itself, and to every other connection once per occurrence in `X`'s
member list; in particular, when the member list has no duplicate entries,
every member other than `s` receives it exactly once. -/
theorem send_broadcast_per_occurrence (rng : Nat → Nat) (st : Registry)
    (X d : String) (s : Conn) :
    (handleCommand rng s st ⟨"send", X, d⟩).st = st ∧
    (∀ c : Conn, c ≠ s →
      ((handleCommand rng s st ⟨"send", X, d⟩).sends.count
        (c, WireMsg.req ⟨"send", X, d⟩)) = (getD st X).count c) ∧
    (∀ m : WireMsg, (s, m) ∉ (handleCommand rng s st ⟨"send", X, d⟩).sends) ∧
    (∀ p ∈ (handleCommand rng s st ⟨"send", X, d⟩).sends,
      p.2 = WireMsg.req ⟨"send", X, d⟩) ∧
    ((getD st X).Nodup → ∀ c ∈ getD st X, c ≠ s →
      ((handleCommand rng s st ⟨"send", X, d⟩).sends.count
        (c, WireMsg.req ⟨"send", X, d⟩)) = 1) := by
  rw [handleCommand_send]
  refine ⟨rfl, ?_, ?_, ?_, ?_⟩
  · intro c hc
    exact broadcastSends_count s c (getD st X) ⟨"send", X, d⟩ hc
  · intro m
    exact broadcastSends_not_sender s (getD st X) ⟨"send", X, d⟩ m
  · exact broadcastSends_verbatim s (getD st X) ⟨"send", X, d⟩
  · intro hnd c hm hc
    rw [broadcastSends_count s c (getD st X) ⟨"send", X, d⟩ hc]
    exact List.count_eq_one_of_mem hnd hm

/-- Witness for C1's amended theorem at a concrete input: with channel
`AAAA` holding the single member `1`, a `send` from connection `2`
delivers to `1` exactly once. -/
theorem send_broadcast_per_occurrence_inst :
    (1 : Conn) ≠ (2 : Conn) ∧
    ((handleCommand rng0 2 [("AAAA", [1])] ⟨"send", "AAAA", "x"⟩).sends.count
      (1, WireMsg.req ⟨"send", "AAAA", "x"⟩))
        = (getD [("AAAA", [1])] "AAAA").count 1 ∧
    (getD [("AAAA", [1])] "AAAA").count 1 = 1 :=
  ⟨by decide,
   (send_broadcast_per_occurrence rng0 [("AAAA", [1])] "AAAA" "x" 2).2.1 1
     (by decide),
   by decide⟩

/-- Counterexample to C1 as stated: two `connectChannel AAAA` requests by
connection `1` (starting from the freshly created empty channel) leave the
member list `[1, 1]`, and a `send` by connection `2` then delivers the
message to member `1` twice, not exactly once. -/
theorem send_duplicate_member_double_delivery :
    (handleCommand rng0 1
      ((handleCommand rng0 1 [("AAAA", [])] ⟨"connectChannel", "AAAA", ""⟩).st)
      ⟨"connectChannel", "AAAA", ""⟩).st = [("AAAA", [1, 1])] ∧
    (1 : Conn) ∈ getD [("AAAA", [1, 1])] "AAAA" ∧
    (1 : Conn) ≠ (2 : Conn) ∧
    ((handleCommand rng0 2 [("AAAA", [1, 1])] ⟨"send", "AAAA", "x"⟩).sends.count
      (1, WireMsg.req ⟨"send", "AAAA", "x"⟩)) = 2 := by decide

/-! ## C3 -/

/-- C3: the lifecycle cleanup of `WsHandler` (its deferred block) does not
remove the disconnecting connection from any channel: with connection `1` a
member of channel `WXYZ`, after `cleanup` the registry is unchanged, `1` is
still a member of `WXYZ`, and `1`'s channel association is not cleared.
The removal is the unimplemented `TODO: remove conn from channel` in the
source, so the code contradicts the claim (and its own comment). -/
theorem cleanup_does_not_remove_membership :
    cleanup [("WXYZ", [1])] 1 = [("WXYZ", [1])] ∧
    (1 : Conn) ∈ getD (cleanup [("WXYZ", [1])] 1) "WXYZ" ∧
    channelsOf (cleanup [("WXYZ", [1])] 1) 1 = ["WXYZ"] := by decide

/-! ## C4 -/

/-- C4: processing `connectChannel BBBB` for connection `7`, already a
member of `AAAA`, does not remove `7` from `AAAA` (the source's
`TODO: disconnect from previous channel` is unimplemented): afterwards `7`
is a member of both `AAAA` and `BBBB` at once, contradicting the claimed
leave-then-join and the at-most-one-channel invariant. -/
theorem connectChannel_no_leave_before_join :
    "AAAA" ≠ "BBBB" ∧
    (handleCommand rng0 7 [("AAAA", [7])] ⟨"connectChannel", "BBBB", ""⟩).st
      = [("AAAA", [7]), ("BBBB", [7])] ∧
    (7 : Conn) ∈ getD
      ((handleCommand rng0 7 [("AAAA", [7])] ⟨"connectChannel", "BBBB", ""⟩).st)
      "AAAA" ∧
    (7 : Conn) ∈ getD
      ((handleCommand rng0 7 [("AAAA", [7])] ⟨"connectChannel", "BBBB", ""⟩).st)
      "BBBB" ∧
    channelsOf
      ((handleCommand rng0 7 [("AAAA", [7])] ⟨"connectChannel", "BBBB", ""⟩).st)
      7 = ["AAAA", "BBBB"] := by decide

/-! ## C5 -/

/-- C5: a received request whose command is none of the recognized four
(`""`, `requestChannelId`, `connectChannel`, `send`) makes `WsHandler`
abort only this connection's handler (the `log.Panicf` path, recovered
per connection by the HTTP server): the registry is unchanged and no
message is sent to anyone, so every other connection's processing — a
function of the shared registry — is unaffected. -/
theorem unknown_command_aborts_this_connection_only (rng : Nat → Nat)
    (ws : Conn) (st : Registry) (r : Request)
    (h1 : r.Command ≠ "") (h2 : r.Command ≠ "requestChannelId")
    (h3 : r.Command ≠ "connectChannel") (h4 : r.Command ≠ "send") :
    handleCommand rng ws st r = ⟨st, [], Outcome.aborted⟩ := by
  unfold handleCommand
  split
  next heq => exact absurd heq h1
  next heq => exact absurd heq h2
  next heq => exact absurd heq h3
  next heq => exact absurd heq h4
  next => rfl

/-- Witness for C5 at a concrete input: the unrecognized command `bogus`
aborts that handler with the registry untouched and no sends. -/
theorem unknown_command_aborts_this_connection_only_inst :
    handleCommand rng0 9 [("AAAA", [3])] ⟨"bogus", "AAAA", ""⟩
      = ⟨[("AAAA", [3])], [], Outcome.aborted⟩ :=
  unknown_command_aborts_this_connection_only rng0 9 [("AAAA", [3])]
    ⟨"bogus", "AAAA", ""⟩ (by decide) (by decide) (by decide) (by decide)

/-! ## C6 -/

/-- C6: when the generator exhausts its retry bound (here: the random
stream always draws `AAAA`, which is registered), the `requestChannelId`
branch of `WsHandler` takes the `log.Panicf` path: it sends no failure
response (no response at all) to the requester and aborts that
connection's handler, contradicting the claim that the condition is
reported to the client as a failure response without terminating the
connection. -/
theorem requestChannelId_exhaustion_aborts_without_response :
    generateChannelId rng0 [("AAAA", [])] = none ∧
    handleCommand rng0 3 [("AAAA", [])] ⟨"requestChannelId", "", ""⟩
      = ⟨[("AAAA", [])], [], Outcome.aborted⟩ := by decide

/-! ## C7 -/

/-- C7 (amended): a `connectChannel X` by connection `ws` always succeeds,
creating the channel implicitly when `X` is not yet registered: afterwards
`X` is registered with `ws` appended to its member list (so `X`'s member
list contains `ws`), no response is sent, and the handler proceeds; `ws`'s
set of channels afterwards equals `[X]` when `ws` was previously a member
of no channel (the code records no separate current-channel field and does
not remove prior memberships). -/
theorem connectChannel_implicit_creation (rng : Nat → Nat) (ws : Conn)
    (st : Registry) (X d : String) :
    (handleCommand rng ws st ⟨"connectChannel", X, d⟩).outcome
        = Outcome.proceed ∧
    (handleCommand rng ws st ⟨"connectChannel", X, d⟩).sends = [] ∧
    lookup ((handleCommand rng ws st ⟨"connectChannel", X, d⟩).st) X
        = some (getD st X ++ [ws]) ∧
    ws ∈ getD ((handleCommand rng ws st ⟨"connectChannel", X, d⟩).st) X ∧
    (channelsOf st ws = [] →
      channelsOf ((handleCommand rng ws st ⟨"connectChannel", X, d⟩).st) ws
        = [X]) := by
  rw [handleCommand_connectChannel]
  have hmem : ws ∈ getD st X ++ [ws] :=
    List.mem_append_right _ (List.mem_singleton.mpr rfl)
  refine ⟨rfl, rfl, lookup_setKey_self st X _, ?_, ?_⟩
  · show ws ∈ getD (setKey st X (getD st X ++ [ws])) X
    unfold getD
    rw [lookup_setKey_self]
    exact hmem
  · intro h
    exact channelsOf_setKey_mem st X (getD st X ++ [ws]) ws hmem
      ((channelsOf_eq_nil st ws).mp h)

/-- Witness for C7's amended theorem at a concrete input: connection `5`,
previously in no channel, joins the unregistered code `BBBB`; afterwards
`BBBB` exists with member list `[5]` and `5`'s channels are exactly
`[BBBB]`. -/
theorem connectChannel_implicit_creation_inst :
    channelsOf ([] : Registry) 5 = [] ∧
    lookup ((handleCommand rng0 5 [] ⟨"connectChannel", "BBBB", ""⟩).st) "BBBB"
      = some [5] ∧
    channelsOf ((handleCommand rng0 5 [] ⟨"connectChannel", "BBBB", ""⟩).st) 5
      = ["BBBB"] :=
  ⟨by decide,
   (connectChannel_implicit_creation rng0 5 [] "BBBB" "").2.2.1,
   (connectChannel_implicit_creation rng0 5 [] "BBBB" "").2.2.2.2 (by decide)⟩

/-- Counterexample to C7 as stated: connection `5` is already a member of
`AAAA` and joins the unregistered code `BBBB`; the join does add `5` to
`BBBB`, but `5`'s channels afterwards are `[AAAA, BBBB]`, so `5`'s current
channel does not equal `BBBB`. -/
theorem connectChannel_prior_membership_retained :
    lookup [("AAAA", [5])] "BBBB" = none ∧
    (5 : Conn) ∈ getD
      ((handleCommand rng0 5 [("AAAA", [5])] ⟨"connectChannel", "BBBB", ""⟩).st)
      "BBBB" ∧
    channelsOf
      ((handleCommand rng0 5 [("AAAA", [5])] ⟨"connectChannel", "BBBB", ""⟩).st)
      5 ≠ ["BBBB"] := by decide

/-! ## C8 -/

/-- C8: a `requestChannelId` on which the generator succeeds with code
`cid` registers `cid` in the registry with an empty member list (and `cid`
was unregistered before), replies to the requester — and only the
requester — with the response object `{cid := cid}`, keeps the handler
looping, and `cid` is 4 uppercase letters. -/
theorem requestChannelId_success_registers_and_replies (rng : Nat → Nat)
    (ws : Conn) (st : Registry) (ch d : String) :
    ∀ cid, generateChannelId rng st = some cid →
      handleCommand rng ws st ⟨"requestChannelId", ch, d⟩
        = ⟨setKey st cid [], [(ws, WireMsg.cidResp ⟨cid⟩)], Outcome.proceed⟩ ∧
      lookup st cid = none ∧
      lookup (setKey st cid []) cid = some [] ∧
      cid.length = 4 ∧ (∀ c ∈ cid.toList, 'A' ≤ c ∧ c ≤ 'Z') := by
  intro cid h
  obtain ⟨hfresh, k, _, hid⟩ :=
    generateChannelIdLoop_some rng st generateMaxTries 0 cid h
  rw [Nat.zero_add] at hid
  refine ⟨?_, hfresh, lookup_setKey_self st cid [], ?_, ?_⟩
  · rw [handleCommand_requestChannelId, h]
  · rw [hid]; exact genTry_length rng k
  · rw [hid]; exact genTry_uppercase rng k

/-- Witness for C8 at a concrete input: on the all-zero random stream over
the empty registry the generator returns `AAAA`; the handler registers
`AAAA` with an empty member list and replies `{cid := AAAA}`. -/
theorem requestChannelId_success_registers_and_replies_inst :
    generateChannelId rng0 [] = some "AAAA" ∧
    handleCommand rng0 0 [] ⟨"requestChannelId", "", ""⟩
      = ⟨[("AAAA", [])], [(0, WireMsg.cidResp ⟨"AAAA"⟩)], Outcome.proceed⟩ :=
  ⟨by decide,
   (requestChannelId_success_registers_and_replies rng0 0 [] "" "" "AAAA"
     (by decide)).1⟩

/-! ## C9 -/

/-- C9: a `send` naming a channel code not present in the registry is a
silent no-op: the registry is unchanged (a Go map read does not insert),
no delivery is attempted, and the handler proceeds with the connection
still active. -/
theorem send_unknown_channel_silent_noop (rng : Nat → Nat) (ws : Conn)
    (st : Registry) (X d : String) (h : lookup st X = none) :
    handleCommand rng ws st ⟨"send", X, d⟩ = ⟨st, [], Outcome.proceed⟩ := by
  rw [handleCommand_send]
  unfold getD
  rw [h]
  rfl

/-- Witness for C9 at a concrete input: a `send` to the unregistered code
`ZZZZ` delivers nothing, changes nothing, and proceeds. -/
theorem send_unknown_channel_silent_noop_inst :
    handleCommand rng0 1 [("AAAA", [1])] ⟨"send", "ZZZZ", "x"⟩
      = ⟨[("AAAA", [1])], [], Outcome.proceed⟩ :=
  send_unknown_channel_silent_noop rng0 1 [("AAAA", [1])] "ZZZZ" "x" (by decide)

/-! ## C10 -/

/-- C10: the recipients of a `send` by `s` to channel `X` are exactly `X`'s
member-list entries with `s` excluded by connection identity: the send list
is the identity-filtered member list (so it depends on nothing but `X`'s
member list and `s`'s identity — two registries agreeing on `X` broadcast
identically), and when `s` is not a member of `X` at all, every member of
`X` receives the message: membership of the sender is never consulted. -/
theorem send_recipients_solely_from_member_list (rng rng' : Nat → Nat)
    (s : Conn) (st st' : Registry) (X d : String) :
    (handleCommand rng s st ⟨"send", X, d⟩).sends
        = ((getD st X).filter fun c => decide (c ≠ s)).map
            (fun c => (c, WireMsg.req ⟨"send", X, d⟩)) ∧
    (getD st X = getD st' X →
        (handleCommand rng s st ⟨"send", X, d⟩).sends
          = (handleCommand rng' s st' ⟨"send", X, d⟩).sends) ∧
    (s ∉ getD st X →
        (handleCommand rng s st ⟨"send", X, d⟩).sends
          = (getD st X).map fun c => (c, WireMsg.req ⟨"send", X, d⟩)) := by
  dsimp only [handleCommand_send]
  refine ⟨broadcastSends_eq_filter s (getD st X) _, ?_, ?_⟩
  · intro h
    rw [h]
  · intro hs
    rw [broadcastSends_eq_filter]
    congr 1
    apply List.filter_eq_self.mpr
    intro a ha
    simp only [decide_eq_true_eq]
    intro e
    subst e
    exact hs ha

/-- Witness for C10 at a concrete input: connection `9`, not a member of
`AAAA`, broadcasts into it; both members `1` and `2` are delivered to. -/
theorem send_recipients_solely_from_member_list_inst :
    (9 : Conn) ∉ getD [("AAAA", [1, 2])] "AAAA" ∧
    (handleCommand rng0 9 [("AAAA", [1, 2])] ⟨"send", "AAAA", "x"⟩).sends
      = (getD [("AAAA", [1, 2])] "AAAA").map
          (fun c => (c, WireMsg.req ⟨"send", "AAAA", "x"⟩)) :=
  ⟨by decide,
   (send_recipients_solely_from_member_list rng0 rng0 9 [("AAAA", [1, 2])]
     [("AAAA", [1, 2])] "AAAA" "x").2.2 (by decide)⟩
